import Mathlib

/-!
Verification of the room-scoped WebSocket relay (connection admission,
registry, fanout) of the `websocket-test` repository.

The definitions below are a shallow embedding of the TypeScript sources:
  * `verifyHmacToken`, `extractConnectionData` — `durable-objects/index.ts`
    (identical copies appear in the Durable Object variant of the sources);
  * `createHmacToken` — `server/api/ws/validate.post.ts`;
  * `WebSockets.publish`, `WebSockets.fetch` registration,
    `WebSockets.webSocketMessage` — the `WebSockets` Durable Object class.

Platform primitives used by the sources (`crypto.subtle` HMAC-SHA-256,
`JSON.parse`, `atob`, `String.prototype.trim`, `parseInt(_, 16)`,
`String.prototype.match(/.{1,2}/g)`, UTF-8 `TextEncoder`) are modelled
faithfully as executable Lean functions.
-/

set_option maxRecDepth 20000

namespace WsVerify

/-! ### 32-bit words as `Nat` reduced mod `2^32` -/

def w32 (n : Nat) : Nat := n % 4294967296

def rotr32 (n x : Nat) : Nat := w32 ((x >>> n) ||| (x <<< (32 - n)))

/-! ### SHA-256 (model of the platform digest behind `crypto.subtle` /
`node:crypto`) -/

def shaK : List Nat :=
  [1116352408, 1899447441, 3049323471, 3921009573, 961987163,
   1508970993, 2453635748, 2870763221, 3624381080, 310598401,
   607225278, 1426881987, 1925078388, 2162078206, 2614888103,
   3248222580, 3835390401, 4022224774, 264347078, 604807628,
   770255983, 1249150122, 1555081692, 1996064986, 2554220882,
   2821834349, 2952996808, 3210313671, 3336571891, 3584528711,
   113926993, 338241895, 666307205, 773529912, 1294757372,
   1396182291, 1695183700, 1986661051, 2177026350, 2456956037,
   2730485921, 2820302411, 3259730800, 3345764771, 3516065817,
   3600352804, 4094571909, 275423344, 430227734, 506948616,
   659060556, 883997877, 958139571, 1322822218, 1537002063,
   1747873779, 1955562222, 2024104815, 2227730452, 2361852424,
   2428436474, 2756734187, 3204031479, 3329325298]

structure Hash8 where
  a : Nat
  b : Nat
  c : Nat
  d : Nat
  e : Nat
  f : Nat
  g : Nat
  h : Nat

def shaH0 : Hash8 :=
  ⟨1779033703, 3144134277, 1013904242, 2773480762,
   1359893119, 2600822924, 528734635, 1541459225⟩

def bigS0 (x : Nat) : Nat := rotr32 2 x ^^^ rotr32 13 x ^^^ rotr32 22 x
def bigS1 (x : Nat) : Nat := rotr32 6 x ^^^ rotr32 11 x ^^^ rotr32 25 x
def smallS0 (x : Nat) : Nat := rotr32 7 x ^^^ rotr32 18 x ^^^ (x >>> 3)
def smallS1 (x : Nat) : Nat := rotr32 17 x ^^^ rotr32 19 x ^^^ (x >>> 10)
def chFn (x y z : Nat) : Nat := (x &&& y) ^^^ ((x ^^^ 4294967295) &&& z)
def majFn (x y z : Nat) : Nat := (x &&& y) ^^^ (x &&& z) ^^^ (y &&& z)

/-- Extend a 16-word block to the 64-word message schedule.  The
accumulator holds the words generated so far, most recent first. -/
def scheduleAux : Nat → List Nat → List Nat
  | 0, acc => acc.reverse
  | n + 1, acc =>
    let wt := w32 (smallS1 (acc.getD 1 0) + acc.getD 6 0 +
      smallS0 (acc.getD 14 0) + acc.getD 15 0)
    scheduleAux n (wt :: acc)

def schedule (block : List Nat) : List Nat := scheduleAux 48 block.reverse

def shaRound (st : Hash8) (kw : Nat × Nat) : Hash8 :=
  let t1 := w32 (st.h + bigS1 st.e + chFn st.e st.f st.g + kw.1 + kw.2)
  let t2 := w32 (bigS0 st.a + majFn st.a st.b st.c)
  ⟨w32 (t1 + t2), st.a, st.b, st.c, w32 (st.d + t1), st.e, st.f, st.g⟩

def compress (st : Hash8) (block : List Nat) : Hash8 :=
  let fin := (shaK.zip (schedule block)).foldl shaRound st
  ⟨w32 (st.a + fin.a), w32 (st.b + fin.b), w32 (st.c + fin.c),
   w32 (st.d + fin.d), w32 (st.e + fin.e), w32 (st.f + fin.f),
   w32 (st.g + fin.g), w32 (st.h + fin.h)⟩

/-- Group a byte list (whose length is a multiple of 4 after padding) into
big-endian 32-bit words. -/
def bytesToWords : List Nat → List Nat
  | a :: b :: c :: d :: rest => (((a * 256 + b) * 256 + c) * 256 + d) :: bytesToWords rest
  | _ => []

/-- Consume the padded message sixteen words (one 512-bit block) at a time. -/
def sha256Words (st : Hash8) : List Nat → Hash8
  | w0 :: w1 :: w2 :: w3 :: w4 :: w5 :: w6 :: w7 ::
    w8 :: w9 :: w10 :: w11 :: w12 :: w13 :: w14 :: w15 :: rest =>
    sha256Words
      (compress st [w0, w1, w2, w3, w4, w5, w6, w7,
                    w8, w9, w10, w11, w12, w13, w14, w15]) rest
  | _ => st

/-- SHA-256 padding: `0x80`, zeros to 56 mod 64, 8-byte big-endian bit length. -/
def padMessage (msg : List Nat) : List Nat :=
  let L := msg.length
  let z := (64 + 56 - (L + 1) % 64) % 64
  msg ++ 0x80 :: List.replicate z 0 ++
    [(8 * L) >>> 56 % 256, (8 * L) >>> 48 % 256, (8 * L) >>> 40 % 256,
     (8 * L) >>> 32 % 256, (8 * L) >>> 24 % 256, (8 * L) >>> 16 % 256,
     (8 * L) >>> 8 % 256, 8 * L % 256]

def digestBytes (st : Hash8) : List Nat :=
  [st.a >>> 24 % 256, st.a >>> 16 % 256, st.a >>> 8 % 256, st.a % 256,
   st.b >>> 24 % 256, st.b >>> 16 % 256, st.b >>> 8 % 256, st.b % 256,
   st.c >>> 24 % 256, st.c >>> 16 % 256, st.c >>> 8 % 256, st.c % 256,
   st.d >>> 24 % 256, st.d >>> 16 % 256, st.d >>> 8 % 256, st.d % 256,
   st.e >>> 24 % 256, st.e >>> 16 % 256, st.e >>> 8 % 256, st.e % 256,
   st.f >>> 24 % 256, st.f >>> 16 % 256, st.f >>> 8 % 256, st.f % 256,
   st.g >>> 24 % 256, st.g >>> 16 % 256, st.g >>> 8 % 256, st.g % 256,
   st.h >>> 24 % 256, st.h >>> 16 % 256, st.h >>> 8 % 256, st.h % 256]

def sha256 (msg : List Nat) : List Nat :=
  digestBytes (sha256Words shaH0 (bytesToWords (padMessage msg)))

/-- HMAC-SHA-256 (RFC 2104), the algorithm invoked by
`crypto.subtle.sign/verify('HMAC', …)` and `node:crypto createHmac`. -/
def hmacSha256 (key msg : List Nat) : List Nat :=
  let k0 := if key.length > 64 then sha256 key else key
  let kp := k0 ++ List.replicate (64 - k0.length) 0
  sha256 ((kp.map (fun b => b ^^^ 0x5c)) ++
    sha256 ((kp.map (fun b => b ^^^ 0x36)) ++ msg))

/-! ### UTF-8 encoding (model of `TextEncoder.encode`) -/

def utf8Char (c : Char) : List Nat :=
  let n := c.toNat
  if n < 0x80 then [n]
  else if n < 0x800 then [0xc0 ||| (n >>> 6), 0x80 ||| (n &&& 0x3f)]
  else if n < 0x10000 then
    [0xe0 ||| (n >>> 12), 0x80 ||| ((n >>> 6) &&& 0x3f), 0x80 ||| (n &&& 0x3f)]
  else
    [0xf0 ||| (n >>> 18), 0x80 ||| ((n >>> 12) &&& 0x3f),
     0x80 ||| ((n >>> 6) &&& 0x3f), 0x80 ||| (n &&& 0x3f)]

def utf8List : List Char → List Nat
  | [] => []
  | c :: cs => utf8Char c ++ utf8List cs

def utf8Bytes (s : String) : List Nat := utf8List s.data

/-- Number of UTF-8 bytes of a string: the size of the text-frame payload
that carries it on the wire. -/
def utf8ByteLen (s : String) : Nat := (utf8Bytes s).length

/-- UTF-16 code units contributed by one code point. -/
def utf16Units (c : Char) : Nat := if c.toNat ≥ 0x10000 then 2 else 1

def jsLenList : List Char → Nat
  | [] => 0
  | c :: cs => utf16Units c + jsLenList cs

/-- JavaScript `String.prototype.length`: the number of UTF-16 code units. -/
def jsLength (s : String) : Nat := jsLenList s.data

/-! ### Lowercase hex (model of node `digest('hex')`) -/

def hexDigitChar (n : Nat) : Char :=
  if n = 0 then '0' else if n = 1 then '1' else if n = 2 then '2'
  else if n = 3 then '3' else if n = 4 then '4' else if n = 5 then '5'
  else if n = 6 then '6' else if n = 7 then '7' else if n = 8 then '8'
  else if n = 9 then '9' else if n = 10 then 'a' else if n = 11 then 'b'
  else if n = 12 then 'c' else if n = 13 then 'd' else if n = 14 then 'e'
  else 'f'

def hexPair (b : Nat) : List Char := [hexDigitChar (b / 16), hexDigitChar (b % 16)]

def hexChars : List Nat → List Char
  | [] => []
  | b :: bs => hexPair b ++ hexChars bs

def bytesToHex (bs : List Nat) : String := ⟨hexChars bs⟩

/-! ### JavaScript string primitives -/

/-- JavaScript `WhiteSpace` and `LineTerminator` characters (the set
trimmed by `String.prototype.trim` and skipped by `parseInt`). -/
def jsWsChar (c : Char) : Bool :=
  let n := c.toNat
  n == 32 || n == 9 || n == 10 || n == 13 || n == 11 || n == 12 ||
  n == 160 || n == 8232 || n == 8233 || n == 65279

/-- Model of `String.prototype.trim`. -/
def jsTrim (s : String) : String :=
  ⟨((s.data.dropWhile jsWsChar).reverse.dropWhile jsWsChar).reverse⟩

/-- Model of `String.prototype.split(sep)` for a one-character separator. -/
def jsSplitChar (sep : Char) (s : String) : List String :=
  (s.data.foldr
    (fun c acc =>
      if c = sep then [] :: acc
      else match acc with
        | g :: gs => (c :: g) :: gs
        | [] => [[c]])
    [[]]).map (fun g => (⟨g⟩ : String))

def hexVal (c : Char) : Option Nat :=
  let n := c.toNat
  if 48 ≤ n ∧ n ≤ 57 then some (n - 48)
  else if 97 ≤ n ∧ n ≤ 102 then some (n - 87)
  else if 65 ≤ n ∧ n ≤ 70 then some (n - 55)
  else none

/-- Accumulate the longest prefix of hexadecimal digits, as `parseInt`
does after its prelude. -/
def hexAcc : List Char → Nat → Nat
  | [], acc => acc
  | c :: cs, acc =>
    match hexVal c with
    | some v => hexAcc cs (16 * acc + v)
    | none => acc

/-- Model of JavaScript `parseInt(s, 16)`: skip whitespace, optional sign,
optional `0x` prefix, then the longest hex-digit prefix; `none` is `NaN`. -/
def jsParseIntHex (s : String) : Option Int :=
  let cs := s.data.dropWhile jsWsChar
  let core : List Char → Option Nat := fun l =>
    let l2 := match l with
      | '0' :: x :: more => if x = 'x' ∨ x = 'X' then more else l
      | _ => l
    match l2 with
    | c :: _ => if (hexVal c).isSome then some (hexAcc l2 0) else none
    | [] => none
  match cs with
  | '-' :: rest => (core rest).map (fun n => -(n : Int))
  | '+' :: rest => (core rest).map (fun n => (n : Int))
  | rest => (core rest).map (fun n => (n : Int))

/-- JavaScript `ToUint8` as applied by a `Uint8Array` element store:
`NaN` becomes `0`, integers are reduced modulo 256. -/
def toUint8 : Option Int → Nat
  | none => 0
  | some i => ((i % 256 + 256) % 256).toNat

/-- Line terminators, which `.` in a JavaScript regex does not match. -/
def jsLineTerm (c : Char) : Bool :=
  let n := c.toNat
  n == 10 || n == 13 || n == 8232 || n == 8233

/-- Greedy chunks of one or two characters. -/
def chunkPairs : List Char → List String
  | [] => []
  | [c] => [(⟨[c]⟩ : String)]
  | c :: c2 :: rest => (⟨[c, c2]⟩ : String) :: chunkPairs rest

/-- The successive matches of `/.{1,2}/g`.  A match never spans a line
terminator (`.` does not match them) and the scan is greedy, so the
matches are exactly the greedy two-character chunks of each maximal
line-terminator-free segment. -/
def chunks12 (cs : List Char) : List String :=
  ((cs.foldr
    (fun c acc =>
      if jsLineTerm c then [] :: acc
      else match acc with
        | g :: gs => (c :: g) :: gs
        | [] => [[c]])
    [[]]).map chunkPairs).foldr (· ++ ·) []

/-- Model of `s.match(/.{1,2}/g)`, which is `null` when there is no match. -/
def jsMatchChunks12 (s : String) : Option (List String) :=
  match chunks12 s.data with
  | [] => none
  | l => some l

deriving instance DecidableEq for Except

/-! ### Base64 (model of `atob`, forgiving-base64 decode) -/

def asciiWs (c : Char) : Bool :=
  let n := c.toNat
  n == 32 || n == 9 || n == 10 || n == 12 || n == 13

def b64Val (c : Char) : Option Nat :=
  let n := c.toNat
  if 65 ≤ n ∧ n ≤ 90 then some (n - 65)
  else if 97 ≤ n ∧ n ≤ 122 then some (n - 71)
  else if 48 ≤ n ∧ n ≤ 57 then some (n + 4)
  else if c = '+' then some 62
  else if c = '/' then some 63
  else none

def b64GroupsDecode : List Nat → Option (List Nat)
  | [] => some []
  | [_] => none
  | [a, b] => some [(a <<< 2) ||| (b >>> 4)]
  | [a, b, c] => some [(a <<< 2) ||| (b >>> 4), ((b &&& 15) <<< 4) ||| (c >>> 2)]
  | a :: b :: c :: d :: rest =>
    (b64GroupsDecode rest).map
      (fun tl => ((a <<< 2) ||| (b >>> 4)) ::
        (((b &&& 15) <<< 4) ||| (c >>> 2)) ::
        ((((c &&& 3) <<< 6) ||| d) :: tl))

/-- Model of `atob`: forgiving-base64 decode to a binary string whose
characters are the decoded byte values; `none` models the thrown
`InvalidCharacterError`. -/
def atobDecode (s : String) : Option String :=
  let cs := s.data.filter (fun c => ¬ asciiWs c)
  let cs := if cs.length % 4 = 0 then
      match cs.reverse with
      | '=' :: '=' :: r => r.reverse
      | '=' :: r => r.reverse
      | _ => cs
    else cs
  if cs.length % 4 = 1 then none
  else
    match (cs.map b64Val).mapM id with
    | none => none
    | some vals => (b64GroupsDecode vals).map (fun bs => (⟨bs.map Char.ofNat⟩ : String))

/-! ### Token issuance and verification

`createHmacToken` is the body of the helper in
`server/api/ws/validate.post.ts` (its secret is the ambient
`NUXT_WEBSOCKET_SECRET`, passed here as an argument).
`verifyHmacToken` and `extractConnectionData` are the functions of
`durable-objects/index.ts` (the Durable Object variant carries verbatim
copies).  Thrown JavaScript errors are modelled as `Except.error` carrying
the error message (`"TypeError"` for the null-dereference
`tokenHex.match(/.{1,2}/g)!`, `"InvalidCharacterError"` for a failed
`atob`). -/

def createHmacToken (decisionId verticalKey email secret : String) : String :=
  bytesToHex (hmacSha256 (utf8Bytes secret)
    (utf8Bytes (decisionId ++ ":" ++ verticalKey ++ ":" ++ email)))

def verifyHmacToken (decisionId verticalKey email tokenHex secret : String) :
    Except String Bool :=
  let data := utf8Bytes (decisionId ++ ":" ++ verticalKey ++ ":" ++ email)
  match jsMatchChunks12 tokenHex with
  | none => .error "TypeError"
  | some chunks =>
    let tokenBytes := chunks.map (fun ch => toUint8 (jsParseIntHex ch))
    .ok (tokenBytes == hmacSha256 (utf8Bytes secret) data)

structure ConnData where
  room : String
  userEmail : String
  decisionId : String
  verticalKey : String
deriving DecidableEq

/-- RoomKey derivation, the expression `` `${decisionId}__${verticalKey}` ``
of `extractConnectionData`. -/
def roomKey (decisionId verticalKey : String) : String :=
  decisionId ++ "__" ++ verticalKey

def extractConnectionData (protocolHeader : Option String) (secret : String) :
    Except String ConnData :=
  match protocolHeader with
  | none => .error "Missing sec-websocket-protocol header"
  | some h =>
    let encoded := (((jsSplitChar ',' h).map jsTrim).head?).getD ""
    if encoded = "" then .error "Invalid sec-websocket-protocol format"
    else match atobDecode encoded with
      | none => .error "InvalidCharacterError"
      | some decoded =>
        let parts := jsSplitChar ':' decoded
        let decisionId := (parts.get? 0).getD ""
        let verticalKey := (parts.get? 1).getD ""
        let userEmail := (parts.get? 2).getD ""
        let token := (parts.get? 3).getD ""
        if decisionId = "" ∨ verticalKey = "" ∨ userEmail = "" ∨ token = "" then
          .error "DecisionId, VerticalKey, and User ID must be provided and separated by colons"
        else match verifyHmacToken decisionId verticalKey userEmail token secret with
          | .error e => .error e
          | .ok false => .error "Unauthorized"
          | .ok true => .ok ⟨roomKey decisionId verticalKey, userEmail, decisionId, verticalKey⟩

/-! ### JSON (model of `JSON.parse`)

Arrays and object field lists are separate inductives (rather than nested
`List`s) so that equality stays structurally decidable and
kernel-computable. -/

mutual
inductive Json where
  | null
  | bool (b : Bool)
  | num (raw : String)
  | str (s : String)
  | arr (elems : JsonList)
  | obj (fields : JsonFields)

inductive JsonList where
  | nil
  | cons (hd : Json) (tl : JsonList)

inductive JsonFields where
  | nil
  | cons (key : String) (val : Json) (tl : JsonFields)
end

deriving instance DecidableEq for Json
deriving instance DecidableEq for JsonList
deriving instance DecidableEq for JsonFields

def jsonWs (c : Char) : Bool :=
  let n := c.toNat
  n == 32 || n == 9 || n == 10 || n == 13

def skipJsonWs (cs : List Char) : List Char := cs.dropWhile jsonWs

def isDigitCh (c : Char) : Bool := 48 ≤ c.toNat && c.toNat ≤ 57

/-- Body of a JSON string literal, after the opening quote. -/
def parseStringBody : List Char → List Char → Option (String × List Char)
  | '"' :: rest, acc => some (⟨acc.reverse⟩, rest)
  | '\\' :: 'u' :: h1 :: h2 :: h3 :: h4 :: rest, acc =>
    match hexVal h1, hexVal h2, hexVal h3, hexVal h4 with
    | some v1, some v2, some v3, some v4 =>
      parseStringBody rest (Char.ofNat (((v1 * 16 + v2) * 16 + v3) * 16 + v4) :: acc)
    | _, _, _, _ => none
  | '\\' :: e :: rest, acc =>
    if e = '"' then parseStringBody rest ('"' :: acc)
    else if e = '\\' then parseStringBody rest ('\\' :: acc)
    else if e = '/' then parseStringBody rest ('/' :: acc)
    else if e = 'b' then parseStringBody rest ('\x08' :: acc)
    else if e = 'f' then parseStringBody rest ('\x0c' :: acc)
    else if e = 'n' then parseStringBody rest ('\n' :: acc)
    else if e = 'r' then parseStringBody rest ('\r' :: acc)
    else if e = 't' then parseStringBody rest ('\t' :: acc)
    else none
  | c :: rest, acc =>
    if c.toNat < 32 ∨ c = '\\' then none else parseStringBody rest (c :: acc)
  | [], _ => none

/-- A JSON number literal: `-?(0|[1-9][0-9]*)(\.[0-9]+)?([eE][+-]?[0-9]+)?`.
The raw matched text is kept. -/
def parseNumberLit (cs : List Char) : Option (String × List Char) :=
  let (sign, cs1) : List Char × List Char :=
    match cs with
    | '-' :: r => (['-'], r)
    | _ => ([], cs)
  let intPart : Option (List Char × List Char) :=
    match cs1 with
    | '0' :: r => some (['0'], r)
    | c :: _ =>
      if isDigitCh c ∧ c ≠ '0' then
        some (cs1.takeWhile isDigitCh, cs1.dropWhile isDigitCh)
      else none
    | [] => none
  match intPart with
  | none => none
  | some (ip, r1) =>
    let fracPart : Option (List Char × List Char) :=
      match r1 with
      | '.' :: d :: r =>
        if isDigitCh d then
          some ('.' :: (d :: r).takeWhile isDigitCh, (d :: r).dropWhile isDigitCh)
        else none
      | '.' :: [] => none
      | _ => some ([], r1)
    match fracPart with
    | none => none
    | some (fp, r2) =>
      match r2 with
      | e :: r3 =>
        if e = 'e' ∨ e = 'E' then
          let p : List Char × List Char :=
            match r3 with
            | '+' :: r => (['+'], r)
            | '-' :: r => (['-'], r)
            | _ => ([], r3)
          match p.2 with
          | d :: _ =>
            if isDigitCh d then
              some (⟨sign ++ ip ++ fp ++ e :: p.1 ++ p.2.takeWhile isDigitCh⟩,
                p.2.dropWhile isDigitCh)
            else none
          | [] => none
        else some (⟨sign ++ ip ++ fp⟩, r2)
      | [] => some (⟨sign ++ ip ++ fp⟩, r2)

mutual
def parseValue : Nat → List Char → Option (Json × List Char)
  | 0, _ => none
  | fuel + 1, cs =>
    match skipJsonWs cs with
    | 'n' :: 'u' :: 'l' :: 'l' :: rest => some (.null, rest)
    | 't' :: 'r' :: 'u' :: 'e' :: rest => some (.bool true, rest)
    | 'f' :: 'a' :: 'l' :: 's' :: 'e' :: rest => some (.bool false, rest)
    | '"' :: rest => (parseStringBody rest []).map (fun p => (.str p.1, p.2))
    | '{' :: rest =>
      (match skipJsonWs rest with
       | '}' :: r2 => some (.obj .nil, r2)
       | _ => (parseObjFields fuel rest).map (fun p => (.obj p.1, p.2)))
    | '[' :: rest =>
      (match skipJsonWs rest with
       | ']' :: r2 => some (.arr .nil, r2)
       | _ => (parseArrayElems fuel rest).map (fun p => (.arr p.1, p.2)))
    | c :: rest =>
      if c = '-' ∨ isDigitCh c then
        (parseNumberLit (c :: rest)).map (fun p => (.num p.1, p.2))
      else none
    | [] => none

def parseObjFields : Nat → List Char → Option (JsonFields × List Char)
  | 0, _ => none
  | fuel + 1, cs =>
    match skipJsonWs cs with
    | '"' :: rest =>
      match parseStringBody rest [] with
      | none => none
      | some (k, r1) =>
        match skipJsonWs r1 with
        | ':' :: r2 =>
          match parseValue fuel r2 with
          | none => none
          | some (v, r3) =>
            match skipJsonWs r3 with
            | ',' :: r4 => (parseObjFields fuel r4).map (fun p => (.cons k v p.1, p.2))
            | '}' :: r4 => some (.cons k v .nil, r4)
            | _ => none
        | _ => none
    | _ => none

def parseArrayElems : Nat → List Char → Option (JsonList × List Char)
  | 0, _ => none
  | fuel + 1, cs =>
    match parseValue fuel cs with
    | none => none
    | some (v, r1) =>
      match skipJsonWs r1 with
      | ',' :: r2 => (parseArrayElems fuel r2).map (fun p => (.cons v p.1, p.2))
      | ']' :: r2 => some (.cons v .nil, r2)
      | _ => none
end

/-- Model of `JSON.parse`: `none` is a thrown `SyntaxError`. -/
def jsonParse (s : String) : Option Json :=
  match parseValue (s.data.length + 1) s.data with
  | some (j, rest) => if skipJsonWs rest = [] then some j else none
  | none => none

/-- Property lookup on a parsed JSON value, as JavaScript sees it: only
objects have (own) properties, and with duplicate keys in the source text
the last occurrence wins. -/
def getFieldLast : JsonFields → String → Option Json
  | .nil, _ => none
  | .cons k v tl, key =>
    match getFieldLast tl key with
    | some r => some r
    | none => if k = key then some v else none

def jsGetField : Json → String → Option Json
  | .obj fs, key => getFieldLast fs key
  | _, _ => none

/-! ### The `WebSockets` Durable Object: sessions registry, publish,
message handler

Connection handles (`WebSocket` objects used as `Map` keys) are modelled
as `Nat` identifiers.  The session attachment stored per connection is
exactly the `ConnData` produced by `extractConnectionData`.  The per-room
fanout's transport sends may fail; `sendOk` tells which handles'
`ws.send` succeeds (the source catches the failure per recipient). -/

def MAX_MESSAGE_SIZE : Nat := 1024 * 10

def getSession : List (Nat × ConnData) → Nat → Option ConnData
  | [], _ => none
  | (k, v) :: rest, ws => if k = ws then some v else getSession rest ws

/-- `Map.set`: overwrite in place, else append. -/
def setSession : List (Nat × ConnData) → Nat → ConnData → List (Nat × ConnData)
  | [], ws, d => [(ws, d)]
  | (k, v) :: rest, ws, d =>
    if k = ws then (ws, d) :: rest else (k, v) :: setSession rest ws d

/-- The registration step of `WebSockets.fetch` (after a successful
`extractConnectionData`): `this.sessions.set(server, wsData)`.  The
source performs no lookup of, and no close on, any existing session with
the same `userEmail`. -/
def registerSession (sessions : List (Nat × ConnData)) (ws : Nat) (d : ConnData) :
    List (Nat × ConnData) :=
  setSession sessions ws d

/-- One pass of the `WebSockets.publish` loop over the sessions map:
for each entry in the room, a successful `ws.send` delivers, a throwing
one marks the socket for removal. -/
def publishScan (sendOk : Nat → Bool) (room : String) :
    List (Nat × ConnData) → List Nat × List Nat
  | [] => ([], [])
  | (ws, d) :: rest =>
    let p := publishScan sendOk room rest
    if d.room = room then
      if sendOk ws then (ws :: p.1, p.2) else (p.1, ws :: p.2)
    else p

/-- `WebSockets.publish`: fan out to every session of the room, collect
the sockets whose send threw, then delete them from the sessions map.
Returns the list of handles the event was delivered to and the updated
sessions map.  The whole body is wrapped in `try`/`catch`, so nothing is
ever raised to the caller; this model is a total function. -/
def publish (sendOk : Nat → Bool) (sessions : List (Nat × ConnData)) (room : String) :
    List Nat × List (Nat × ConnData) :=
  let p := publishScan sendOk room sessions
  (p.1, sessions.filter (fun e => !(p.2.contains e.1)))

def roomMembers (sessions : List (Nat × ConnData)) (room : String) : List Nat :=
  (sessions.filter (fun e => e.2.room == room)).map Prod.fst

def identityCount (sessions : List (Nat × ConnData)) (room email : String) : Nat :=
  (sessions.filter (fun e => e.2.room == room && e.2.userEmail == email)).length

/-- Modelled from the spec: the `crossws` dependency's
`peer.publish(topic, data)` (not part of `src/`; used by the
`crossws`-adapter worker variant) delivers the event to every peer
subscribed to the topic except the publishing peer itself.  Subscriptions
are pairs of a peer handle and its topic. -/
def peerPublish (subs : List (Nat × String)) (selfPeer : Nat) (topic : String) :
    List Nat :=
  (subs.filter (fun e => e.2 == topic && e.1 != selfPeer)).map Prod.fst

def topicSubscribers (subs : List (Nat × String)) (topic : String) : List Nat :=
  (subs.filter (fun e => e.2 == topic)).map Prod.fst

/-! ### The message handler `WebSockets.webSocketMessage` -/

inductive OutEvent where
  | chat (userEmail userName text time decisionId verticalKey : String)
  | nameUpdate (userEmail name time decisionId verticalKey : String)
deriving DecidableEq

structure DOState where
  sessions : List (Nat × ConnData)
  storage : List (String × String)
deriving DecidableEq

def storGet : List (String × String) → String → Option String
  | [], _ => none
  | (k, v) :: rest, key => if k = key then some v else storGet rest key

def storPut : List (String × String) → String → String → List (String × String)
  | [], key, v => [(key, v)]
  | (k, w) :: rest, key, v =>
    if k = key then (key, v) :: rest else (k, w) :: storPut rest key v

/-- Everything `webSocketMessage` does with one inbound text frame:
whether (and how) it closes the sender, the broadcast event it publishes
(sent serialized to each delivered handle), and the resulting sessions
map and storage. -/
structure HandlerResult where
  closeInfo : Option (Nat × String)
  event : Option OutEvent
  delivered : List Nat
  finState : DOState
deriving DecidableEq

def invalidFmtClose (st : DOState) : HandlerResult :=
  ⟨some (1003, "Invalid message format"), none, [], st⟩

/-- The chat branch's display-name lookup
`(await this.state.storage.get(`name:${userEmail}`)) || userEmail`:
a stored falsy value (absent, or the empty string) falls back to the
e-mail. -/
def userNameOf (storage : List (String × String)) (email : String) : String :=
  match storGet storage ("name:" ++ email) with
  | some n => if n = "" then email else n
  | none => email

/-- `WebSockets.webSocketMessage` for a text frame `msg` (binary frames
take the earlier `typeof message !== 'string'` close and never reach this
logic).  `now` is the value of `new Date().toISOString()` at publish
time. -/
def webSocketMessage (sendOk : Nat → Bool) (st : DOState) (ws : Nat)
    (msg : String) (now : String) : HandlerResult :=
  match getSession st.sessions ws with
  | none => ⟨some (1003, "Session not found"), none, [], st⟩
  | some wsData =>
    if jsLength msg > MAX_MESSAGE_SIZE then
      ⟨some (1009, "Message too large"), none, [], st⟩
    else
      match jsonParse msg with
      | none => invalidFmtClose st
      | some parsed =>
        if jsGetField parsed "type" = some (.str "chat") then
          match jsGetField parsed "text" with
          | some (.str t) =>
            if jsLength (jsTrim t) = 0 then invalidFmtClose st
            else
              let p := publish sendOk st.sessions wsData.room
              ⟨none,
               some (.chat wsData.userEmail (userNameOf st.storage wsData.userEmail) t now
                 wsData.decisionId wsData.verticalKey),
               p.1, ⟨p.2, st.storage⟩⟩
          | _ => invalidFmtClose st
        else if jsGetField parsed "type" = some (.str "name") then
          match jsGetField parsed "name" with
          | some (.str n) =>
            if jsLength (jsTrim n) = 0 then invalidFmtClose st
            else
              let storage2 := storPut st.storage ("name:" ++ wsData.userEmail) (jsTrim n)
              let p := publish sendOk st.sessions wsData.room
              ⟨none,
               some (.nameUpdate wsData.userEmail (jsTrim n) now
                 wsData.decisionId wsData.verticalKey),
               p.1, ⟨p.2, storage2⟩⟩
          | _ => invalidFmtClose st
        else invalidFmtClose st

/-! ### Concrete data used by witnesses and counterexamples -/

/-- Replace the character at an index (used to flip one character of a
signature hex string). -/
def flipCharAt (s : String) (i : Nat) (c : Char) : String := ⟨s.data.set i c⟩

def lowHexDigits : List Char := "0123456789abcdef".data

def isLowerHexDigit (c : Char) : Bool := lowHexDigits.contains c

def dA : ConnData := ⟨"D__V", "alice@x", "D", "V"⟩
def dB : ConnData := ⟨"D__V", "bob@x", "D", "V"⟩
def dC : ConnData := ⟨"E__W", "carol@x", "E", "W"⟩

/-- Two sessions in room `D__V`, one in room `E__W`, empty storage. -/
def sessions3 : List (Nat × ConnData) := [(1, dA), (2, dB), (3, dC)]

def st2 : DOState := ⟨[(1, dA), (2, dB)], []⟩

/-- A 10215-character chat text: together with the JSON framing it yields
a message of exactly 10240 UTF-16 code units. -/
def bigText : String := ⟨List.replicate 10215 'a'⟩

def bigChatMsg : String := "\x7b\"type\":\"chat\",\"text\":\"" ++ bigText ++ "\"\x7d"

def bigJson : Json :=
  .obj (.cons "type" (.str "chat") (.cons "text" (.str bigText) .nil))

/-- A 10241-code-unit message. -/
def tooBigMsg : String := ⟨List.replicate 10241 'a'⟩

/-- An unterminated-string frame of 5121 code units but 10241 UTF-8
bytes: a quote followed by 5120 copies of U+0100 (two UTF-8 bytes each). -/
def uniMsg : String := ⟨'"' :: List.replicate 5120 'Ā'⟩

/-- The first entry of the comma-separated sub-protocol header after
trimming — the `const [encoded] = protocolHeader.split(',').map(trim)`
step of `extractConnectionData`. -/
def firstEntryOf (h : String) : String :=
  (((jsSplitChar ',' h).map jsTrim).head?).getD ""

/-- The spec's `MalformedHandshake` class: the handshake-shape errors of
`extractConnectionData` (as opposed to `Unauthorized` or the verifier's
`TypeError`). -/
def isMalformedResult (r : Except String ConnData) : Prop :=
  r = .error "Missing sec-websocket-protocol header" ∨
  r = .error "Invalid sec-websocket-protocol format" ∨
  r = .error "InvalidCharacterError" ∨
  r = .error "DecisionId, VerticalKey, and User ID must be provided and separated by colons"

instance (r : Except String ConnData) : Decidable (isMalformedResult r) := by
  unfold isMalformedResult
  infer_instance

/-- One of the first four colon-separated fields of the decoded blob is
missing or empty (JavaScript falsy after the destructuring). -/
def firstFourFieldBad (decoded : String) : Prop :=
  ((jsSplitChar ':' decoded).get? 0).getD "" = "" ∨
  ((jsSplitChar ':' decoded).get? 1).getD "" = "" ∨
  ((jsSplitChar ':' decoded).get? 2).getD "" = "" ∨
  ((jsSplitChar ':' decoded).get? 3).getD "" = ""

instance (decoded : String) : Decidable (firstFourFieldBad decoded) := by
  unfold firstFourFieldBad
  infer_instance

/-! ## Helper lemmas -/

theorem strDataMk (l : List Char) : (⟨l⟩ : String).data = l := rfl

theorem jsLenList_append (a b : List Char) :
    jsLenList (a ++ b) = jsLenList a + jsLenList b := by
  induction a with
  | nil => simp [jsLenList]
  | cons c cs ih => simp [jsLenList, ih]; omega

theorem jsLenList_replicate (n : Nat) (c : Char) :
    jsLenList (List.replicate n c) = n * utf16Units c := by
  induction n with
  | zero => simp [jsLenList]
  | succ k ih => rw [List.replicate_succ]; simp [jsLenList, ih]; ring

theorem utf8List_replicate (n : Nat) (c : Char) :
    (utf8List (List.replicate n c)).length = n * (utf8Char c).length := by
  induction n with
  | zero => simp [utf8List]
  | succ k ih => rw [List.replicate_succ]; simp [utf8List, ih]; ring

theorem dropWhile_replicate_of_neg {p : Char → Bool} {c : Char} (h : p c = false)
    (n : Nat) : List.dropWhile p (List.replicate n c) = List.replicate n c := by
  cases n with
  | zero => rfl
  | succ k => rw [List.replicate_succ]; simp [List.dropWhile, h]

theorem jsTrim_replicate_a (n : Nat) :
    jsTrim (⟨List.replicate n 'a'⟩ : String) = ⟨List.replicate n 'a'⟩ := by
  rw [jsTrim, strDataMk]
  rw [dropWhile_replicate_of_neg (by decide) n, List.reverse_replicate,
    dropWhile_replicate_of_neg (by decide) n, List.reverse_replicate]

theorem psb_replicate_a (n : Nat) (acc : List Char) (rest : List Char) :
    parseStringBody (List.replicate n 'a' ++ '"' :: rest) acc =
      some (⟨acc.reverse ++ List.replicate n 'a'⟩, rest) := by
  induction n generalizing acc with
  | zero => simp [parseStringBody]
  | succ k ih =>
    rw [List.replicate_succ, List.cons_append]
    rw [show parseStringBody ('a' :: (List.replicate k 'a' ++ '"' :: rest)) acc =
      parseStringBody (List.replicate k 'a' ++ '"' :: rest) ('a' :: acc) from by
        simp [parseStringBody]]
    rw [ih]
    simp [List.replicate_succ]

theorem psb_replicate_uni (n : Nat) (acc : List Char) :
    parseStringBody (List.replicate n 'Ā') acc = none := by
  induction n generalizing acc with
  | zero => simp [parseStringBody]
  | succ k ih =>
    rw [List.replicate_succ]
    rw [show parseStringBody ('Ā' :: List.replicate k 'Ā') acc =
      parseStringBody (List.replicate k 'Ā') ('Ā' :: acc) from by
        simp [parseStringBody]]
    exact ih _

theorem bigChatMsg_data : bigChatMsg.data =
    '{' :: '"' :: 't' :: 'y' :: 'p' :: 'e' :: '"' :: ':' :: '"' :: 'c' :: 'h' :: 'a' :: 't' :: '"' :: ',' ::
    '"' :: 't' :: 'e' :: 'x' :: 't' :: '"' :: ':' :: '"' ::
    (List.replicate 10215 'a' ++ ['"', '}']) := by
  show ("\x7b\"type\":\"chat\",\"text\":\"".data ++ (bigText.data ++ "\"\x7d".data)) = _
  rw [show bigText.data = List.replicate 10215 'a' from rfl]
  rw [show "\x7b\"type\":\"chat\",\"text\":\"".data =
    ['{','"','t','y','p','e','"',':','"','c','h','a','t','"',',','"','t','e','x','t','"',':','"'] from rfl]
  rw [show "\"\x7d".data = ['"','}'] from rfl]
  simp only [List.cons_append, List.nil_append]

theorem bigChatMsg_len : jsLength bigChatMsg = 10240 := by
  have h2 : bigChatMsg.data =
      "\x7b\"type\":\"chat\",\"text\":\"".data ++ (bigText.data ++ "\"\x7d".data) := rfl
  rw [jsLength, h2, jsLenList_append, jsLenList_append,
    show bigText.data = List.replicate 10215 'a' from rfl, jsLenList_replicate]
  decide

theorem pv_chat_shape (f n : Nat) :
    parseValue (f + 1 + 1 + 1 + 1)
      ('{' :: '"' :: 't' :: 'y' :: 'p' :: 'e' :: '"' :: ':' :: '"' :: 'c' :: 'h' :: 'a' :: 't' :: '"' :: ',' ::
       '"' :: 't' :: 'e' :: 'x' :: 't' :: '"' :: ':' :: '"' ::
       (List.replicate n 'a' ++ ['"', '}'])) =
    some (.obj (.cons "type" (.str "chat")
      (.cons "text" (.str ⟨List.replicate n 'a'⟩) .nil)), []) := by
  simp [parseValue, parseObjFields, parseStringBody, skipJsonWs, jsonWs,
    psb_replicate_a, List.dropWhile]

theorem publishScan_all_ok (sessions : List (Nat × ConnData)) (room : String) :
    publishScan (fun _ => true) room sessions = (roomMembers sessions room, []) := by
  induction sessions with
  | nil => rfl
  | cons e rest ih =>
    obtain ⟨ws, d⟩ := e
    by_cases h : d.room = room <;>
      · simp only [roomMembers] at ih
        simp [publishScan, roomMembers, List.filter_cons, ih, h]

theorem publishScan_delivered_mem (sendOk : Nat → Bool) (room : String)
    (sessions : List (Nat × ConnData)) (ws : Nat) (d : ConnData)
    (hmem : (ws, d) ∈ sessions) (hroom : d.room = room) (hok : sendOk ws = true) :
    ws ∈ (publishScan sendOk room sessions).1 := by
  induction sessions with
  | nil => cases hmem
  | cons e rest ih =>
    rcases List.mem_cons.mp hmem with he | he
    · cases he
      simp [publishScan, hroom, hok]
    · obtain ⟨w2, d2⟩ := e
      by_cases h2 : d2.room = room <;> by_cases h3 : sendOk w2 <;>
        simp [publishScan, h2, h3, ih he]

theorem publishScan_removed_mem (sendOk : Nat → Bool) (room : String)
    (sessions : List (Nat × ConnData)) (ws : Nat) (d : ConnData)
    (hmem : (ws, d) ∈ sessions) (hroom : d.room = room) (hok : sendOk ws = false) :
    ws ∈ (publishScan sendOk room sessions).2 := by
  induction sessions with
  | nil => cases hmem
  | cons e rest ih =>
    rcases List.mem_cons.mp hmem with he | he
    · cases he
      simp [publishScan, hroom, hok]
    · obtain ⟨w2, d2⟩ := e
      by_cases h2 : d2.room = room <;> by_cases h3 : sendOk w2 <;>
        simp [publishScan, h2, h3, ih he]

theorem publishScan_delivered_ok (sendOk : Nat → Bool) (room : String)
    (sessions : List (Nat × ConnData)) (w : Nat)
    (hw : w ∈ (publishScan sendOk room sessions).1) :
    sendOk w = true ∧ ∃ d, (w, d) ∈ sessions ∧ d.room = room := by
  induction sessions with
  | nil => cases hw
  | cons e rest ih =>
    obtain ⟨w2, d2⟩ := e
    by_cases h2 : d2.room = room <;> by_cases h3 : sendOk w2 <;>
      simp only [publishScan, h2, h3, if_true, if_false, ite_true, ite_false] at hw
    · rcases List.mem_cons.mp hw with rfl | hw2
      · exact ⟨h3, d2, List.mem_cons_self _ _, h2⟩
      · obtain ⟨hok, d, hd, hr⟩ := ih hw2
        exact ⟨hok, d, List.mem_cons_of_mem _ hd, hr⟩
    all_goals
      obtain ⟨hok, d, hd, hr⟩ := ih hw
      exact ⟨hok, d, List.mem_cons_of_mem _ hd, hr⟩

/-- C1 — the failing input evaluated: in the `WebSockets` Durable Object,
registering a second connection (handle 2) for the identity `alice@x`
that already has a live registered connection (handle 1) in room `D__V`
leaves **both** sessions in the registry — `identityCount` is 2, the
prior session is still present, and the registration path contains no
close of the prior handle — where the claim (and spec §4.2) mandates that
the prior connection be closed and removed so that exactly one remains. -/
theorem c1_register_keeps_duplicate_sessions :
    registerSession (registerSession [] 1 dA) 2 dA = [(1, dA), (2, dA)] ∧
    identityCount (registerSession (registerSession [] 1 dA) 2 dA) "D__V" "alice@x" = 2 ∧
    getSession (registerSession (registerSession [] 1 dA) 2 dA) 1 = some dA := by
  decide

theorem peerPublish_eq_filter (subs : List (Nat × String)) (selfPeer : Nat)
    (topic : String) :
    peerPublish subs selfPeer topic =
      (topicSubscribers subs topic).filter (fun p => p != selfPeer) := by
  induction subs with
  | nil => rfl
  | cons e rest ih =>
    obtain ⟨q, t⟩ := e
    simp only [peerPublish, topicSubscribers] at ih
    by_cases h2 : t = topic <;> by_cases h3 : q = selfPeer <;>
      simp [peerPublish, topicSubscribers, List.filter_cons, h2, h3, ih]

theorem length_filter_ne_of_nodup (l : List Nat) (a : Nat) (hnd : l.Nodup)
    (hmem : a ∈ l) : (l.filter (fun p => p != a)).length = l.length - 1 := by
  induction l with
  | nil => cases hmem
  | cons b rest ih =>
    rcases List.mem_cons.mp hmem with rfl | hmem2
    · have hna : a ∉ rest := (List.nodup_cons.mp hnd).1
      have hr : rest.filter (fun p => p != a) = rest :=
        List.filter_eq_self.mpr (fun x hx => by
          simp only [bne_iff_ne, ne_eq, decide_eq_true_eq]
          rintro rfl; exact hna hx)
      simp [List.filter_cons, hr]
    · have hb : b ≠ a := by
        rintro rfl; exact (List.nodup_cons.mp hnd).1 hmem2
      have ih2 := ih (List.nodup_cons.mp hnd).2 hmem2
      have hlen : 1 ≤ rest.length := List.length_pos.mpr (List.ne_nil_of_mem hmem2)
      have hba : (b != a) = true := by simp [hb]
      simp [List.filter_cons, hba, ih2]
      omega

/-- C2 — `WebSockets.publish` (the `excludeSelf = false` shape: the
Durable Object sends to every session of the room, the source included)
delivers to all N sessions of the room; the `crossws` `peer.publish`
(the `excludeSelf = true` shape, modelled from the spec) delivers to
N − 1 when the sender is among the room's subscribers. -/
theorem c2_fanout_counts (sessions : List (Nat × ConnData)) (room : String) :
    (publish (fun _ => true) sessions room).1 = roomMembers sessions room ∧
    ∀ (subs : List (Nat × String)) (selfPeer : Nat),
      (subs.map Prod.fst).Nodup → (selfPeer, room) ∈ subs →
      (peerPublish subs selfPeer room).length =
        (topicSubscribers subs room).length - 1 := by
  constructor
  · simp [publish, publishScan_all_ok]
  · intro subs selfPeer hnd hmem
    have hnd2 : (topicSubscribers subs room).Nodup := by
      refine List.Nodup.sublist ?_ hnd
      exact List.Sublist.map Prod.fst (List.filter_sublist subs)
    have hself : selfPeer ∈ topicSubscribers subs room := by
      refine List.mem_map.mpr ⟨(selfPeer, room), List.mem_filter.mpr ⟨hmem, by simp⟩, rfl⟩
    rw [peerPublish_eq_filter]
    exact length_filter_ne_of_nodup _ _ hnd2 hself

/-- C2 witness: a room with three subscribed sessions (two in `D__V`,
one in `E__W`): the Durable Object publish delivers to both `D__V`
members (N = 2), and the `crossws` publish from peer 1 delivers to
exactly one other peer (N − 1 = 1). -/
theorem c2_fanout_counts_witness :
    (publish (fun _ => true) sessions3 "D__V").1 = [1, 2] ∧
    peerPublish [(1, "D__V"), (2, "D__V"), (3, "E__W")] 1 "D__V" = [2] ∧
    (peerPublish [(1, "D__V"), (2, "D__V"), (3, "E__W")] 1 "D__V").length =
      (topicSubscribers [(1, "D__V"), (2, "D__V"), (3, "E__W")] "D__V").length - 1 := by
  refine ⟨?_, by decide, (c2_fanout_counts sessions3 "D__V").2 _ 1 (by decide) (by decide)⟩
  rw [(c2_fanout_counts sessions3 "D__V").1]
  decide

theorem assoc_value_unique (sessions : List (Nat × ConnData))
    (hnd : (sessions.map Prod.fst).Nodup) (ws : Nat) (d d' : ConnData)
    (h1 : (ws, d) ∈ sessions) (h2 : (ws, d') ∈ sessions) : d = d' := by
  induction sessions with
  | nil => cases h1
  | cons e rest ih =>
    obtain ⟨w0, d0⟩ := e
    rw [List.map_cons, List.nodup_cons] at hnd
    rcases List.mem_cons.mp h1 with he1 | he1 <;>
      rcases List.mem_cons.mp h2 with he2 | he2
    · rw [Prod.mk.injEq] at he1 he2
      rw [he1.2, ← he2.2]
    · exfalso
      apply hnd.1
      rw [Prod.mk.injEq] at he1
      rw [← he1.1]
      exact List.mem_map.mpr ⟨(ws, d'), he2, rfl⟩
    · exfalso
      apply hnd.1
      rw [Prod.mk.injEq] at he2
      rw [← he2.1]
      exact List.mem_map.mpr ⟨(ws, d), he1, rfl⟩
    · exact ih hnd.2 he1 he2

/-- C3 — `WebSockets.publish` is best-effort and independent per
recipient: whatever other handles' sends do (`sendOk` is arbitrary), a
registered room member whose send succeeds is delivered to; a member
whose send throws is absent from the delivered list and is deregistered
from the resulting sessions map.  `publish` is a total function — the
per-recipient `try`/`catch` and the surrounding `try`/`catch` mean no
failure reaches the caller. -/
theorem c3_send_failure_isolated (sendOk : Nat → Bool)
    (sessions : List (Nat × ConnData)) (room : String) (ws : Nat) (d : ConnData)
    (hmem : (ws, d) ∈ sessions) (hroom : d.room = room) :
    (sendOk ws = true → ws ∈ (publish sendOk sessions room).1) ∧
    (sendOk ws = false →
      ws ∉ ((publish sendOk sessions room).2.map Prod.fst) ∧
      ws ∉ (publish sendOk sessions room).1) := by
  constructor
  · intro hok
    exact publishScan_delivered_mem sendOk room sessions ws d hmem hroom hok
  · intro hko
    constructor
    · intro hw
      obtain ⟨e, he, hfst⟩ := List.mem_map.mp hw
      have hkeep := (List.mem_filter.mp he).2
      have hrem : ws ∈ (publishScan sendOk room sessions).2 :=
        publishScan_removed_mem sendOk room sessions ws d hmem hroom hko
      rw [hfst] at hkeep
      simp only [Bool.not_eq_true'] at hkeep
      have hc : (publishScan sendOk room sessions).2.contains ws = true :=
        List.elem_iff.mpr hrem
      rw [hc] at hkeep
      cases hkeep
    · intro hw
      obtain ⟨hok, _, _, _⟩ := publishScan_delivered_ok sendOk room sessions ws hw
      rw [hok] at hko
      cases hko

/-- C3 witness: in `sessions3`, handle 2's send fails while handle 1's
succeeds; 2 is dropped from the registry and not delivered to, 1 is
still delivered to. -/
theorem c3_send_failure_isolated_witness :
    dB.room = "D__V" ∧
    2 ∉ ((publish (fun w => w != 2) sessions3 "D__V").2.map Prod.fst) ∧
    2 ∉ (publish (fun w => w != 2) sessions3 "D__V").1 ∧
    1 ∈ (publish (fun w => w != 2) sessions3 "D__V").1 := by
  refine ⟨by decide, ?_, ?_, ?_⟩
  · exact ((c3_send_failure_isolated (fun w => w != 2) sessions3 "D__V" 2 dB
      (by decide) (by decide)).2 (by decide)).1
  · exact ((c3_send_failure_isolated (fun w => w != 2) sessions3 "D__V" 2 dB
      (by decide) (by decide)).2 (by decide)).2
  · exact (c3_send_failure_isolated (fun w => w != 2) sessions3 "D__V" 1 dA
      (by decide) (by decide)).1 (by decide)

/-- C10 — publish is room-scoped: a session registered under a
different room in the same sessions map is never among the delivered
handles. -/
theorem c10_publish_room_scoped (sendOk : Nat → Bool)
    (sessions : List (Nat × ConnData)) (room : String) (ws : Nat) (d : ConnData)
    (hnd : (sessions.map Prod.fst).Nodup) (hmem : (ws, d) ∈ sessions)
    (hne : d.room ≠ room) : ws ∉ (publish sendOk sessions room).1 := by
  intro hw
  obtain ⟨_, d', hd', hr'⟩ := publishScan_delivered_ok sendOk room sessions ws hw
  exact hne ((assoc_value_unique sessions hnd ws d d' hmem hd') ▸ hr')

/-- C10 witness: session 1 lives in room `D__V`; publishing to `E__W`
never delivers to it (only to session 3). -/
theorem c10_publish_room_scoped_witness :
    (sessions3.map Prod.fst).Nodup ∧ dA.room ≠ "E__W" ∧
    1 ∉ (publish (fun _ => true) sessions3 "E__W").1 ∧
    (publish (fun _ => true) sessions3 "E__W").1 = [3] := by
  refine ⟨by decide, by decide, ?_, by decide⟩
  exact c10_publish_room_scoped (fun _ => true) sessions3 "E__W" 1 dA
    (by decide) (by decide) (by decide)

theorem bigChatMsg_parse : jsonParse bigChatMsg = some bigJson := by
  have hlen : bigChatMsg.data.length = 10237 + 1 + 1 + 1 := by
    rw [bigChatMsg_data]
    simp only [List.length_cons, List.length_append, List.length_replicate,
      List.length_nil]
  rw [jsonParse, hlen, bigChatMsg_data, pv_chat_shape 10237 10215]
  simp [skipJsonWs, bigJson, bigText]

/-- Shared fact behind C9 and the C4 counterexample: for a registered
session and a frame within the size limit, a parse failure or an
unrecognized `type` takes the `catch` path — close `1003` with reason
`Invalid message format` and no event, no delivery, no state change. -/
theorem handlerInvalidClose (sendOk : Nat → Bool) (st : DOState) (ws : Nat)
    (d : ConnData) (msg now : String)
    (hreg : getSession st.sessions ws = some d)
    (hsz : jsLength msg ≤ 10240)
    (hbad : jsonParse msg = none ∨ ∃ j, jsonParse msg = some j ∧
      jsGetField j "type" ≠ some (.str "chat") ∧
      jsGetField j "type" ≠ some (.str "name")) :
    webSocketMessage sendOk st ws msg now =
      ⟨some (1003, "Invalid message format"), none, [], st⟩ := by
  have hsz2 : ¬ (jsLength msg > MAX_MESSAGE_SIZE) := by
    simp only [MAX_MESSAGE_SIZE]; omega
  rcases hbad with hnone | ⟨j, hj, h1, h2⟩
  · simp [webSocketMessage, hreg, hsz2, hnone, invalidFmtClose]
  · simp [webSocketMessage, hreg, hsz2, hj, h1, h2, invalidFmtClose]

/-- C9 — an inbound message that is not valid JSON, or whose `type` is
neither `"chat"` nor `"name"`, closes the connection with `1003`
(`Invalid message format`) and produces no broadcast, no registry change
and no storage change. -/
theorem c9_invalid_message_closes (sendOk : Nat → Bool) (st : DOState) (ws : Nat)
    (d : ConnData) (msg now : String)
    (hreg : getSession st.sessions ws = some d)
    (hsz : jsLength msg ≤ 10240)
    (hbad : jsonParse msg = none ∨ ∃ j, jsonParse msg = some j ∧
      jsGetField j "type" ≠ some (.str "chat") ∧
      jsGetField j "type" ≠ some (.str "name")) :
    webSocketMessage sendOk st ws msg now =
      ⟨some (1003, "Invalid message format"), none, [], st⟩ :=
  handlerInvalidClose sendOk st ws d msg now hreg hsz hbad

/-- C9 witness: `{"type":"bogus"}` and the non-JSON text `nonsense` both
close session 1 with the invalid-format code, leaving `st2` unchanged. -/
theorem c9_invalid_message_closes_witness :
    getSession st2.sessions 1 = some dA ∧
    jsonParse "\x7b\"type\":\"bogus\"\x7d" = some (.obj (.cons "type" (.str "bogus") .nil)) ∧
    jsonParse "nonsense" = none ∧
    webSocketMessage (fun _ => true) st2 1 "\x7b\"type\":\"bogus\"\x7d" "T" =
      ⟨some (1003, "Invalid message format"), none, [], st2⟩ ∧
    webSocketMessage (fun _ => true) st2 1 "nonsense" "T" =
      ⟨some (1003, "Invalid message format"), none, [], st2⟩ := by
  refine ⟨by decide, by decide, by decide, ?_, ?_⟩
  · exact c9_invalid_message_closes _ st2 1 dA _ "T" (by decide) (by decide)
      (Or.inr ⟨.obj (.cons "type" (.str "bogus") .nil), by decide, by decide, by decide⟩)
  · exact c9_invalid_message_closes _ st2 1 dA _ "T" (by decide) (by decide)
      (Or.inl (by decide))

theorem pv_unterminated (f n : Nat) :
    parseValue (f + 1) ('"' :: List.replicate n 'Ā') = none := by
  simp [parseValue, skipJsonWs, List.dropWhile, psb_replicate_uni, jsonWs]

theorem uniMsg_parse_none : jsonParse uniMsg = none := by
  have hdata : uniMsg.data = '"' :: List.replicate 5120 'Ā' := rfl
  have hlen : uniMsg.data.length = 5120 + 1 := by
    rw [hdata, List.length_cons, List.length_replicate]
  rw [jsonParse, hlen, hdata, pv_unterminated (5120 + 1) 5120]

theorem uniMsg_jsLength : jsLength uniMsg = 5121 := by
  have hdata : uniMsg.data = '"' :: List.replicate 5120 'Ā' := rfl
  rw [jsLength, hdata,
    show jsLenList ('"' :: List.replicate 5120 'Ā') =
      utf16Units '"' + jsLenList (List.replicate 5120 'Ā') from rfl,
    jsLenList_replicate]
  decide

theorem uniMsg_byteLen : utf8ByteLen uniMsg = 10241 := by
  have hdata : uniMsg.data = '"' :: List.replicate 5120 'Ā' := rfl
  rw [utf8ByteLen, utf8Bytes, hdata,
    show utf8List ('"' :: List.replicate 5120 'Ā') =
      utf8Char '"' ++ utf8List (List.replicate 5120 'Ā') from rfl,
    List.length_append, utf8List_replicate]
  decide

/-- C4 counterexample: the limit counts UTF-16 code units, not bytes.
`uniMsg` is a frame of 10241 UTF-8 bytes (above the claimed 10241-byte
cut-off), yet the handler does **not** close it with the 1009
message-too-large code: it passes the size gate (5121 code units) and is
processed — here reaching the JSON-parse failure close 1003. -/
theorem c4_cex_byte_limit :
    utf8ByteLen uniMsg = 10241 ∧
    jsLength uniMsg = 5121 ∧
    webSocketMessage (fun _ => true) st2 1 uniMsg "T" =
      ⟨some (1003, "Invalid message format"), none, [], st2⟩ := by
  refine ⟨uniMsg_byteLen, uniMsg_jsLength, ?_⟩
  exact handlerInvalidClose _ st2 1 dA uniMsg "T" (by decide)
    (by rw [uniMsg_jsLength]; omega) (Or.inl uniMsg_parse_none)

/-- C4 amended — the ceiling is 10240 UTF-16 code units of the message
string (`message.length`), not bytes: a frame longer than 10240 code
units is closed `1009` (`Message too large`) before any processing and
with no other effect, and a frame of at most 10240 code units passes the
size gate — in particular a valid chat message of exactly 10240 code
units is published to the room.  (For pure-ASCII payloads code units and
bytes coincide, so the claim's `10240`/`10241`-byte boundary holds for
them.) -/
theorem c4_size_limit_amended (sendOk : Nat → Bool) (st : DOState) (ws : Nat)
    (d : ConnData) (msg now : String)
    (hreg : getSession st.sessions ws = some d) :
    (jsLength msg > 10240 →
      webSocketMessage sendOk st ws msg now =
        ⟨some (1009, "Message too large"), none, [], st⟩) ∧
    (∀ j t, jsLength msg ≤ 10240 → jsonParse msg = some j →
      jsGetField j "type" = some (.str "chat") →
      jsGetField j "text" = some (.str t) →
      jsLength (jsTrim t) ≠ 0 →
      webSocketMessage sendOk st ws msg now =
        ⟨none,
         some (.chat d.userEmail (userNameOf st.storage d.userEmail) t now
           d.decisionId d.verticalKey),
         (publish sendOk st.sessions d.room).1,
         ⟨(publish sendOk st.sessions d.room).2, st.storage⟩⟩) := by
  constructor
  · intro hbig
    have hb : jsLength msg > MAX_MESSAGE_SIZE := by
      simpa [MAX_MESSAGE_SIZE] using hbig
    simp [webSocketMessage, hreg, hb]
  · intro j t hsz hj hty htx htr
    have hsz2 : ¬ (jsLength msg > MAX_MESSAGE_SIZE) := by
      simp only [MAX_MESSAGE_SIZE]; omega
    simp [webSocketMessage, hreg, hsz2, hj, hty, htx, htr]

theorem bigText_trim_len : jsLength (jsTrim bigText) = 10215 := by
  rw [show bigText = (⟨List.replicate 10215 'a'⟩ : String) from rfl,
    jsTrim_replicate_a, jsLength, strDataMk, jsLenList_replicate]
  decide

/-- C4 witness: a message of 10241 code units is closed `1009`; the
valid chat message `bigChatMsg` of exactly 10240 code units is accepted
and published to both sessions of the room. -/
theorem c4_size_limit_witness :
    jsLength tooBigMsg = 10241 ∧
    jsLength bigChatMsg = 10240 ∧
    webSocketMessage (fun _ => true) st2 1 tooBigMsg "T" =
      ⟨some (1009, "Message too large"), none, [], st2⟩ ∧
    webSocketMessage (fun _ => true) st2 1 bigChatMsg "T" =
      ⟨none, some (.chat "alice@x" "alice@x" bigText "T" "D" "V"), [1, 2],
        ⟨st2.sessions, []⟩⟩ := by
  have hbig : jsLength tooBigMsg = 10241 := by
    rw [show tooBigMsg = (⟨List.replicate 10241 'a'⟩ : String) from rfl,
      jsLength, strDataMk, jsLenList_replicate]
    decide
  refine ⟨hbig, bigChatMsg_len, ?_, ?_⟩
  · exact (c4_size_limit_amended _ st2 1 dA tooBigMsg "T" (by decide)).1
      (by rw [hbig]; omega)
  · have h := (c4_size_limit_amended (fun _ => true) st2 1 dA bigChatMsg "T"
      (by decide)).2 bigJson bigText (by rw [bigChatMsg_len]) bigChatMsg_parse
      rfl rfl (by rw [bigText_trim_len]; omega)
    rw [h]
    rw [show publish (fun _ => true) st2.sessions dA.room = ([1, 2], st2.sessions) from by decide]
    rfl

theorem strExt {s t : String} (h : s.data = t.data) : s = t := by
  cases s; cases t; cases h; rfl

theorem append_uscore_inj (a : List Char) : ∀ (b x y : List Char),
    (∀ c ∈ a, c ≠ '_') → (∀ c ∈ b, c ≠ '_') →
    a ++ '_' :: '_' :: x = b ++ '_' :: '_' :: y → a = b ∧ x = y := by
  induction a with
  | nil =>
    intro b x y _ hb h
    cases b with
    | nil => simpa using h
    | cons c bs =>
      rw [List.nil_append, List.cons_append, List.cons.injEq] at h
      exact absurd h.1.symm (hb c (List.mem_cons_self _ _))
  | cons c as ih =>
    intro b x y ha hb h
    cases b with
    | nil =>
      rw [List.nil_append, List.cons_append, List.cons.injEq] at h
      exact absurd h.1 (ha c (List.mem_cons_self _ _))
    | cons c2 bs =>
      rw [List.cons_append, List.cons_append, List.cons.injEq] at h
      obtain ⟨hab, hxy⟩ := ih bs x y
        (fun e he => ha e (List.mem_cons_of_mem _ he))
        (fun e he => hb e (List.mem_cons_of_mem _ he)) h.2
      exact ⟨by rw [h.1, hab], hxy⟩

theorem roomKey_data (d v : String) :
    (roomKey d v).data = d.data ++ '_' :: '_' :: v.data := by
  rw [show (roomKey d v).data = (d.data ++ ['_', '_']) ++ v.data from rfl,
    List.append_assoc]
  rfl

/-- C8 counterexample: the separator `__` *can* occur inside a
component (nothing restricts the decision identifier), and then two
distinct pairs collide: `("a__b", "c")` and `("a", "b__c")` map to the
same RoomKey. -/
theorem c8_cex_separator_collision :
    roomKey "a__b" "c" = roomKey "a" "b__c" ∧
    ("a__b", "c") ≠ ("a", "b__c") := by decide

/-- C8 amended — RoomKey derivation is injective on pairs whose
decision identifiers do not contain the underscore character: under that
restriction equal RoomKeys force equal pairs; and the spec's concrete
test holds: `roomKey "a" "bc" ≠ roomKey "ab" "c"`.  (Unrestricted
injectivity fails: the source does not guarantee the separator is absent
from the components.) -/
theorem c8_roomkey_inj_amended :
    (∀ d1 v1 d2 v2 : String, (∀ c ∈ d1.data, c ≠ '_') → (∀ c ∈ d2.data, c ≠ '_') →
      roomKey d1 v1 = roomKey d2 v2 → d1 = d2 ∧ v1 = v2) ∧
    roomKey "a" "bc" ≠ roomKey "ab" "c" := by
  constructor
  · intro d1 v1 d2 v2 h1 h2 h
    have hd := congrArg String.data h
    rw [roomKey_data, roomKey_data] at hd
    obtain ⟨ha, hb⟩ := append_uscore_inj d1.data d2.data v1.data v2.data h1 h2 hd
    exact ⟨strExt ha, strExt hb⟩
  · decide

/-- C8 witness: underscore-free inputs instantiating the amended
injectivity. -/
theorem c8_roomkey_inj_witness :
    (∀ c ∈ "D1".data, c ≠ '_') ∧ ("D1" = "D1" ∧ "V1" = "V1") :=
  ⟨by decide, c8_roomkey_inj_amended.1 "D1" "V1" "D1" "V1" (by decide) (by decide) rfl⟩

theorem hmac_len (key msg : List Nat) : (hmacSha256 key msg).length = 32 := rfl

/-- C6 counterexample: on the empty string — the archetypal malformed
hex — `verifyHmacToken` does not return `false`: the regex `match`
returns `null`, the non-null assertion dereferences it, and the function
throws a `TypeError`. -/
theorem c6_cex_empty_hex_throws :
    verifyHmacToken "a" "b" "c" "" "s" = .error "TypeError" ∧
    ∀ b : Bool, verifyHmacToken "a" "b" "c" "" "s" ≠ .ok b := by decide

/-- C6 amended — `verifyHmacToken` throws a `TypeError` (rather than
returning `false`) exactly when `tokenHex.match(/.{1,2}/g)` is `null`:
on the empty string, and on strings of line terminators only.  On any
other malformed hex it returns without throwing, and returns `ok false`
whenever the coerced chunk count differs from the 32 bytes of the MAC
(non-hex chunks are coerced to bytes via `parseInt`/`Uint8Array`, not
rejected). -/
theorem c6_malformed_hex_amended (d v e secret tokenHex : String) :
    (jsMatchChunks12 tokenHex = none →
      verifyHmacToken d v e tokenHex secret = .error "TypeError") ∧
    (tokenHex = "" → jsMatchChunks12 tokenHex = none) ∧
    (∀ chunks, jsMatchChunks12 tokenHex = some chunks → chunks.length ≠ 32 →
      verifyHmacToken d v e tokenHex secret = .ok false) := by
  refine ⟨fun h => by simp [verifyHmacToken, h], fun h => by rw [h]; rfl,
    fun chunks hc hlen => ?_⟩
  have hne : chunks.map (fun ch => toUint8 (jsParseIntHex ch)) ≠
      hmacSha256 (utf8Bytes secret)
        (utf8Bytes (d ++ ":" ++ v ++ ":" ++ e)) := by
    intro heq
    apply hlen
    have := congrArg List.length heq
    rw [List.length_map, hmac_len] at this
    exact this
  simp [verifyHmacToken, hc, beq_eq_false_iff_ne, hne]

/-- C6 witness: `"zz"` (not hex) yields `ok false` without throwing
(one coerced chunk against a 32-byte MAC); the line-terminator string
`"\n"` has no regex match and throws. -/
theorem c6_malformed_hex_witness :
    jsMatchChunks12 "zz" = some ["zz"] ∧
    verifyHmacToken "a" "b" "c" "zz" "s" = .ok false ∧
    jsMatchChunks12 "\n" = none ∧
    verifyHmacToken "a" "b" "c" "\n" "s" = .error "TypeError" := by
  refine ⟨by decide, ?_, by decide, ?_⟩
  · exact (c6_malformed_hex_amended "a" "b" "c" "s" "zz").2.2 ["zz"]
      (by decide) (by decide)
  · exact (c6_malformed_hex_amended "a" "b" "c" "s" "\n").1 (by decide)

/-- `verifyHmacToken` either throws the chunking `TypeError` or returns
a boolean — it has no other outcome. -/
theorem verify_shape (d v e tokenHex secret : String) :
    verifyHmacToken d v e tokenHex secret = .error "TypeError" ∨
    ∃ b, verifyHmacToken d v e tokenHex secret = .ok b := by
  rw [verifyHmacToken]
  cases jsMatchChunks12 tokenHex with
  | none => exact Or.inl rfl
  | some chunks => exact Or.inr ⟨_, rfl⟩

/-- C5 counterexample: a handshake whose decoded blob splits into five
non-empty fields is **not** rejected as malformed: `extractConnectionData`
silently drops the fifth field and proceeds to signature verification,
failing with `Unauthorized`. -/
theorem c5_cex_five_fields :
    atobDecode "YTpiOmM6ZDpl" = some "a:b:c:d:e" ∧
    (jsSplitChar ':' "a:b:c:d:e").length = 5 ∧
    extractConnectionData (some "YTpiOmM6ZDpl") "secret" = .error "Unauthorized" ∧
    ¬ isMalformedResult (extractConnectionData (some "YTpiOmM6ZDpl") "secret") := by
  refine ⟨by decide, by decide, by decide, ?_⟩
  rw [show extractConnectionData (some "YTpiOmM6ZDpl") "secret" =
    .error "Unauthorized" from by decide]
  decide

/-- C5 amended — admission fails with a `MalformedHandshake`-class error
exactly when: the header is absent; or the first (trimmed) entry is
empty; or it fails base64 decoding; or one of the **first four**
colon-separated fields of the decoded string is missing or empty.  A
decoded string with five or more fields (the first four non-empty) is
*not* malformed: the extra fields are ignored and the handshake proceeds
to signature verification. -/
theorem c5_malformed_amended (header : Option String) (secret : String) :
    (header = none →
      extractConnectionData header secret =
        .error "Missing sec-websocket-protocol header") ∧
    (∀ h, header = some h → firstEntryOf h = "" →
      extractConnectionData header secret =
        .error "Invalid sec-websocket-protocol format") ∧
    (∀ h, header = some h → firstEntryOf h ≠ "" →
      atobDecode (firstEntryOf h) = none →
      extractConnectionData header secret = .error "InvalidCharacterError") ∧
    (∀ h decoded, header = some h → firstEntryOf h ≠ "" →
      atobDecode (firstEntryOf h) = some decoded → firstFourFieldBad decoded →
      extractConnectionData header secret =
        .error "DecisionId, VerticalKey, and User ID must be provided and separated by colons") ∧
    (∀ h decoded, header = some h → firstEntryOf h ≠ "" →
      atobDecode (firstEntryOf h) = some decoded → ¬ firstFourFieldBad decoded →
      ¬ isMalformedResult (extractConnectionData header secret)) := by
  refine ⟨fun h => by rw [h]; rfl, fun h hh he => ?_, fun h hh hne hb => ?_,
    fun h decoded hh hne hdec hbad => ?_, fun h decoded hh hne hdec hok => ?_⟩
  · subst hh
    simp only [firstEntryOf] at he
    simp only [extractConnectionData]
    rw [if_pos he]
  · subst hh
    simp only [firstEntryOf] at hne hb
    simp only [extractConnectionData]
    rw [if_neg hne, hb]
  · subst hh
    simp only [firstEntryOf] at hne hdec
    simp only [firstFourFieldBad] at hbad
    simp only [extractConnectionData]
    rw [if_neg hne, hdec]
    simp only [if_pos hbad]
  · subst hh
    simp only [firstEntryOf] at hne hdec
    simp only [firstFourFieldBad] at hok
    simp only [extractConnectionData]
    rw [if_neg hne, hdec]
    simp only [if_neg hok]
    rcases verify_shape (((jsSplitChar ':' decoded).get? 0).getD "")
        (((jsSplitChar ':' decoded).get? 1).getD "")
        (((jsSplitChar ':' decoded).get? 2).getD "")
        (((jsSplitChar ':' decoded).get? 3).getD "") secret with hv | ⟨b, hv⟩
    · rw [hv]
      simp [isMalformedResult]
    · rw [hv]
      cases b <;> simp [isMalformedResult]

/-- C5 witness: each malformed-class outcome at a concrete header, and a
five-field blob escaping the malformed class. -/
theorem c5_malformed_witness :
    extractConnectionData none "s" = .error "Missing sec-websocket-protocol header" ∧
    extractConnectionData (some "") "s" = .error "Invalid sec-websocket-protocol format" ∧
    extractConnectionData (some "%%%") "s" = .error "InvalidCharacterError" ∧
    extractConnectionData (some "YTpi") "s" =
      .error "DecisionId, VerticalKey, and User ID must be provided and separated by colons" ∧
    ¬ isMalformedResult (extractConnectionData (some "YTpiOmM6ZDpl") "s") := by
  refine ⟨(c5_malformed_amended none "s").1 rfl,
    (c5_malformed_amended (some "") "s").2.1 "" rfl (by decide),
    (c5_malformed_amended (some "%%%") "s").2.2.1 "%%%" rfl (by decide) (by decide),
    (c5_malformed_amended (some "YTpi") "s").2.2.2.1 "YTpi" "a:b" rfl (by decide)
      (by decide) (by decide),
    (c5_malformed_amended (some "YTpiOmM6ZDpl") "s").2.2.2.2 "YTpiOmM6ZDpl"
      "a:b:c:d:e" rfl (by decide) (by decide) (by decide)⟩

theorem hexDigitChar_mem (m : Nat) : hexDigitChar m ∈ lowHexDigits := by
  rcases Nat.lt_or_ge m 16 with h | h
  · revert h
    revert m
    decide
  · rw [show hexDigitChar m = 'f' from by
      simp [hexDigitChar, show m ≠ 0 from by omega, show m ≠ 1 from by omega,
        show m ≠ 2 from by omega, show m ≠ 3 from by omega, show m ≠ 4 from by omega,
        show m ≠ 5 from by omega, show m ≠ 6 from by omega, show m ≠ 7 from by omega,
        show m ≠ 8 from by omega, show m ≠ 9 from by omega, show m ≠ 10 from by omega,
        show m ≠ 11 from by omega, show m ≠ 12 from by omega, show m ≠ 13 from by omega,
        show m ≠ 14 from by omega]]
    decide

theorem hexVal_hexDigitChar : ∀ m < 16, hexVal (hexDigitChar m) = some m := by decide

theorem lowHex_not_lineTerm : ∀ c ∈ lowHexDigits, jsLineTerm c = false := by decide

theorem parse_two_hex : ∀ c1 ∈ lowHexDigits, ∀ c2 ∈ lowHexDigits,
    jsParseIntHex ⟨[c1, c2]⟩ =
      some ((((hexVal c1).getD 0) * 16 + (hexVal c2).getD 0 : Nat) : Int) := by decide

theorem hexDigitChar_of_val : ∀ c ∈ lowHexDigits, hexDigitChar ((hexVal c).getD 0) = c := by
  decide

theorem hexVal_lt : ∀ c ∈ lowHexDigits, (hexVal c).getD 0 < 16 := by decide

theorem lowHex_mem {c : Char} (h : isLowerHexDigit c = true) : c ∈ lowHexDigits := by
  rw [isLowerHexDigit] at h
  exact List.elem_iff.mp h

theorem toUint8_small (v : Nat) (h : v < 256) : toUint8 (some (v : Int)) = v := by
  simp only [toUint8]
  have h2 : ((v : Int) % 256 + 256) % 256 = (v : Int) := by omega
  rw [h2]
  simp
theorem hexChars_no_lineTerm (bs : List Nat) :
    ∀ c ∈ hexChars bs, jsLineTerm c = false := by
  induction bs with
  | nil => intro c hc; cases hc
  | cons b rest ih =>
    intro c hc
    rcases List.mem_cons.mp hc with rfl | hc2
    · exact lowHex_not_lineTerm _ (hexDigitChar_mem _)
    · rcases List.mem_cons.mp hc2 with rfl | hc3
      · exact lowHex_not_lineTerm _ (hexDigitChar_mem _)
      · exact ih c hc3

theorem hexChars_length (bs : List Nat) : (hexChars bs).length = 2 * bs.length := by
  induction bs with
  | nil => rfl
  | cons b rest ih => simp [hexChars, hexPair, ih]; ring

theorem split_noLT (cs : List Char) (h : ∀ c ∈ cs, jsLineTerm c = false) :
    (cs.foldr
      (fun c acc =>
        if jsLineTerm c then [] :: acc
        else match acc with
          | g :: gs => (c :: g) :: gs
          | [] => [[c]])
      [[]]) = [cs] := by
  induction cs with
  | nil => rfl
  | cons c rest ih =>
    rw [List.foldr_cons, ih (fun e he => h e (List.mem_cons_of_mem _ he))]
    simp [h c (List.mem_cons_self _ _)]

theorem chunks12_noLT (cs : List Char) (h : ∀ c ∈ cs, jsLineTerm c = false) :
    chunks12 cs = chunkPairs cs := by
  rw [chunks12, split_noLT cs h]
  simp

theorem toUint8_parse_pair (b : Nat) (hb : b < 256) :
    toUint8 (jsParseIntHex ⟨hexPair b⟩) = b := by
  have hd : b / 16 < 16 := by omega
  have hm : b % 16 < 16 := by omega
  rw [show (⟨hexPair b⟩ : String) = ⟨[hexDigitChar (b / 16), hexDigitChar (b % 16)]⟩ from rfl]
  rw [parse_two_hex _ (hexDigitChar_mem _) _ (hexDigitChar_mem _)]
  rw [hexVal_hexDigitChar _ hd, hexVal_hexDigitChar _ hm]
  simp only [Option.getD_some]
  rw [show b / 16 * 16 + b % 16 = b from by omega]
  exact toUint8_small b hb

theorem decode_hexChars (bs : List Nat) (h : ∀ b ∈ bs, b < 256) :
    (chunkPairs (hexChars bs)).map (fun ch => toUint8 (jsParseIntHex ch)) = bs := by
  induction bs with
  | nil => rfl
  | cons b rest ih =>
    rw [show hexChars (b :: rest) =
      hexDigitChar (b / 16) :: hexDigitChar (b % 16) :: hexChars rest from rfl]
    rw [show chunkPairs (hexDigitChar (b / 16) :: hexDigitChar (b % 16) :: hexChars rest) =
      (⟨[hexDigitChar (b / 16), hexDigitChar (b % 16)]⟩ : String) :: chunkPairs (hexChars rest) from rfl]
    rw [List.map_cons, ih (fun e he => h e (List.mem_cons_of_mem _ he))]
    rw [show (⟨[hexDigitChar (b / 16), hexDigitChar (b % 16)]⟩ : String) = ⟨hexPair b⟩ from rfl]
    rw [toUint8_parse_pair b (h b (List.mem_cons_self _ _))]

theorem digestBytes_lt (st : Hash8) : ∀ b ∈ digestBytes st, b < 256 := by
  intro b hb
  simp only [digestBytes, List.mem_cons, List.not_mem_nil, or_false] at hb
  rcases hb with h|h|h|h|h|h|h|h|h|h|h|h|h|h|h|h|h|h|h|h|h|h|h|h|h|h|h|h|h|h|h|h <;>
    (rw [h]; omega)

theorem sha256_bytes_lt (msg : List Nat) : ∀ b ∈ sha256 msg, b < 256 := by
  intro b hb
  rw [sha256] at hb
  exact digestBytes_lt _ b hb

theorem mac_bytes_lt (key msg : List Nat) : ∀ b ∈ hmacSha256 key msg, b < 256 := by
  intro b hb
  rw [hmacSha256] at hb
  exact sha256_bytes_lt _ b hb
theorem matchChunks_of_ne_nil (l : List Char) (hne : l ≠ [])
    (hnolt : ∀ c ∈ l, jsLineTerm c = false) :
    jsMatchChunks12 ⟨l⟩ = some (chunkPairs l) := by
  rw [jsMatchChunks12, strDataMk, chunks12_noLT _ hnolt]
  rcases l with _ | ⟨x, xs⟩
  · exact absurd rfl hne
  · rcases xs with _ | ⟨y, ys⟩ <;> rfl

theorem hexChars_ne_nil (bs : List Nat) (hne : bs ≠ []) : hexChars bs ≠ [] := by
  rcases bs with _ | ⟨b, rest⟩
  · exact absurd rfl hne
  · simp [hexChars, hexPair]

theorem set_hex_no_lineTerm (bs : List Nat) (p : Nat) (c : Char)
    (hc : isLowerHexDigit c = true) :
    ∀ ch ∈ (hexChars bs).set p c, jsLineTerm ch = false := by
  intro ch hch
  rcases List.mem_or_eq_of_mem_set hch with h | rfl
  · exact hexChars_no_lineTerm bs ch h
  · exact lowHex_not_lineTerm _ (lowHex_mem hc)

theorem flip_changes_decode (bs : List Nat) : ∀ (p : Nat) (c : Char),
    (∀ b ∈ bs, b < 256) → p < 2 * bs.length → isLowerHexDigit c = true →
    c ≠ (hexChars bs).getD p ' ' →
    (chunkPairs ((hexChars bs).set p c)).map (fun ch => toUint8 (jsParseIntHex ch)) ≠ bs := by
  induction bs with
  | nil =>
    intro p c _ hp
    simp at hp
  | cons b rest ih =>
    intro p c hlt hp hc hne
    have hx : hexChars (b :: rest) =
      hexDigitChar (b / 16) :: hexDigitChar (b % 16) :: hexChars rest := rfl
    have hblt : b < 256 := hlt b (List.mem_cons_self _ _)
    cases p with
    | zero =>
      rw [hx]
      rw [show (hexDigitChar (b / 16) :: hexDigitChar (b % 16) :: hexChars rest).set 0 c =
        c :: hexDigitChar (b % 16) :: hexChars rest from rfl]
      rw [show chunkPairs (c :: hexDigitChar (b % 16) :: hexChars rest) =
        (⟨[c, hexDigitChar (b % 16)]⟩ : String) :: chunkPairs (hexChars rest) from rfl]
      intro heq
      rw [List.map_cons] at heq
      have h1 := (List.cons.injEq _ _ _ _ ▸ heq).1
      rw [parse_two_hex c (lowHex_mem hc) _ (hexDigitChar_mem _),
        hexVal_hexDigitChar _ (by omega : b % 16 < 16)] at h1
      simp only [Option.getD_some] at h1
      have hvc := hexVal_lt c (lowHex_mem hc)
      rw [toUint8_small _ (by omega)] at h1
      have : (hexVal c).getD 0 = b / 16 := by omega
      have hcc : c = hexDigitChar (b / 16) := by
        rw [← this, hexDigitChar_of_val c (lowHex_mem hc)]
      exact hne (by rw [hcc, hx]; rfl)
    | succ p1 =>
      cases p1 with
      | zero =>
        rw [hx]
        rw [show (hexDigitChar (b / 16) :: hexDigitChar (b % 16) :: hexChars rest).set 1 c =
          hexDigitChar (b / 16) :: c :: hexChars rest from rfl]
        rw [show chunkPairs (hexDigitChar (b / 16) :: c :: hexChars rest) =
          (⟨[hexDigitChar (b / 16), c]⟩ : String) :: chunkPairs (hexChars rest) from rfl]
        intro heq
        rw [List.map_cons] at heq
        have h1 := (List.cons.injEq _ _ _ _ ▸ heq).1
        rw [parse_two_hex _ (hexDigitChar_mem _) c (lowHex_mem hc),
          hexVal_hexDigitChar _ (by omega : b / 16 < 16)] at h1
        simp only [Option.getD_some] at h1
        have hvc := hexVal_lt c (lowHex_mem hc)
        rw [toUint8_small _ (by omega)] at h1
        have : (hexVal c).getD 0 = b % 16 := by omega
        have hcc : c = hexDigitChar (b % 16) := by
          rw [← this, hexDigitChar_of_val c (lowHex_mem hc)]
        exact hne (by rw [hcc, hx]; rfl)
      | succ p2 =>
        rw [hx]
        rw [show (hexDigitChar (b / 16) :: hexDigitChar (b % 16) :: hexChars rest).set
          (p2 + 1 + 1) c =
          hexDigitChar (b / 16) :: hexDigitChar (b % 16) :: (hexChars rest).set p2 c from rfl]
        rw [show chunkPairs (hexDigitChar (b / 16) :: hexDigitChar (b % 16) ::
          (hexChars rest).set p2 c) =
          (⟨[hexDigitChar (b / 16), hexDigitChar (b % 16)]⟩ : String) ::
            chunkPairs ((hexChars rest).set p2 c) from rfl]
        intro heq
        rw [List.map_cons] at heq
        have h2 := (List.cons.injEq _ _ _ _ ▸ heq).2
        refine ih p2 c (fun e he => hlt e (List.mem_cons_of_mem _ he)) ?_ hc ?_ h2
        · simp only [List.length_cons] at hp
          omega
        · intro hgd
          exact hne (by rw [hx]; exact hgd)
theorem hmac_ne_nil (key msg : List Nat) : hmacSha256 key msg ≠ [] := by
  intro h0
  have := congrArg List.length h0
  rw [hmac_len] at this
  cases this

/-- C7 counterexample: flipping a single character of the signature hex
does *not* always make `verify` fail.  With secret `s0` the MAC of
`d:v:i` has a `00` byte (hex chars 56–57); flipping character 57 to the
non-hex `'z'` changes the string, but `parseInt('0z', 16)` still coerces
the chunk to byte 0, so verification still succeeds. -/
theorem c7_cex_flip_nonhex :
    flipCharAt (createHmacToken "d" "v" "i" "s0") 57 'z' ≠
      createHmacToken "d" "v" "i" "s0" ∧
    isLowerHexDigit 'z' = false ∧
    verifyHmacToken "d" "v" "i"
      (flipCharAt (createHmacToken "d" "v" "i" "s0") 57 'z') "s0" = .ok true := by
  refine ⟨by decide, by decide, by decide⟩

theorem verify_eval (d v e secret tokenHex : String) (chunks : List String)
    (hch : jsMatchChunks12 tokenHex = some chunks) :
    verifyHmacToken d v e tokenHex secret =
      .ok (chunks.map (fun ch => toUint8 (jsParseIntHex ch)) ==
        hmacSha256 (utf8Bytes secret) (utf8Bytes (d ++ ":" ++ v ++ ":" ++ e))) := by
  rw [verifyHmacToken, hch]

/-- C7 amended — for all `(decisionId, verticalKey, identity, secret)`:
(a) verifying the token issued by `createHmacToken` with the same secret
succeeds; (b) flipping any single character of the signature hex **to a
different lowercase hex digit** makes verify fail; (c) verifying under a
secret whose MAC of the same data differs makes verify fail.  (Flips to
characters outside the hex alphabet can leave verification succeeding,
because malformed chunks are coerced, not rejected — see the
counterexample.) -/
theorem c7_hmac_verify_amended (d v e secret : String) :
    verifyHmacToken d v e (createHmacToken d v e secret) secret = .ok true ∧
    (∀ p c, p < 64 → isLowerHexDigit c = true →
      c ≠ (createHmacToken d v e secret).data.getD p ' ' →
      verifyHmacToken d v e
        (flipCharAt (createHmacToken d v e secret) p c) secret = .ok false) ∧
    (∀ secret2,
      hmacSha256 (utf8Bytes secret2) (utf8Bytes (d ++ ":" ++ v ++ ":" ++ e)) ≠
        hmacSha256 (utf8Bytes secret) (utf8Bytes (d ++ ":" ++ v ++ ":" ++ e)) →
      verifyHmacToken d v e (createHmacToken d v e secret) secret2 = .ok false) := by
  have hmne := hmac_ne_nil (utf8Bytes secret) (utf8Bytes (d ++ ":" ++ v ++ ":" ++ e))
  have hrt : jsMatchChunks12 (createHmacToken d v e secret) =
      some (chunkPairs (hexChars
        (hmacSha256 (utf8Bytes secret) (utf8Bytes (d ++ ":" ++ v ++ ":" ++ e))))) := by
    rw [show createHmacToken d v e secret =
      (⟨hexChars (hmacSha256 (utf8Bytes secret)
        (utf8Bytes (d ++ ":" ++ v ++ ":" ++ e)))⟩ : String) from rfl]
    exact matchChunks_of_ne_nil _ (hexChars_ne_nil _ hmne) (hexChars_no_lineTerm _)
  have hdec : (chunkPairs (hexChars
      (hmacSha256 (utf8Bytes secret) (utf8Bytes (d ++ ":" ++ v ++ ":" ++ e))))).map
        (fun ch => toUint8 (jsParseIntHex ch)) =
      hmacSha256 (utf8Bytes secret) (utf8Bytes (d ++ ":" ++ v ++ ":" ++ e)) :=
    decode_hexChars _ (mac_bytes_lt _ _)
  refine ⟨?_, fun p c hp hc hne2 => ?_, fun secret2 hm => ?_⟩
  · rw [verify_eval d v e secret _ _ hrt, hdec]
    simp
  · have hsetne : (hexChars (hmacSha256 (utf8Bytes secret)
        (utf8Bytes (d ++ ":" ++ v ++ ":" ++ e)))).set p c ≠ [] := by
      intro h0
      have := congrArg List.length h0
      rw [List.length_set, hexChars_length, hmac_len] at this
      cases this
    have hch2 : jsMatchChunks12 (flipCharAt (createHmacToken d v e secret) p c) =
        some (chunkPairs ((hexChars (hmacSha256 (utf8Bytes secret)
          (utf8Bytes (d ++ ":" ++ v ++ ":" ++ e)))).set p c)) := by
      rw [show flipCharAt (createHmacToken d v e secret) p c =
        (⟨(hexChars (hmacSha256 (utf8Bytes secret)
          (utf8Bytes (d ++ ":" ++ v ++ ":" ++ e)))).set p c⟩ : String) from rfl]
      exact matchChunks_of_ne_nil _ hsetne (set_hex_no_lineTerm _ p c hc)
    rw [verify_eval d v e secret _ _ hch2]
    have hflip := flip_changes_decode
      (hmacSha256 (utf8Bytes secret) (utf8Bytes (d ++ ":" ++ v ++ ":" ++ e)))
      p c (mac_bytes_lt _ _)
      (by rw [hmac_len]; omega) hc (by exact hne2)
    rw [beq_eq_false_iff_ne.mpr hflip]
  · rw [verify_eval d v e secret2 _ _ hrt]
    rw [show utf8Bytes (d ++ ":" ++ v ++ ":" ++ e) =
      utf8Bytes (d ++ ":" ++ v ++ ":" ++ e) from rfl, hdec]
    rw [beq_eq_false_iff_ne.mpr (fun h => hm h.symm)]

/-- C7 witness: concrete secrets `s1`/`s2` exercising the amended
theorem's three parts. -/
theorem c7_hmac_verify_witness :
    verifyHmacToken "d" "v" "i" (createHmacToken "d" "v" "i" "s1") "s1" = .ok true ∧
    isLowerHexDigit '0' = true ∧
    '0' ≠ (createHmacToken "d" "v" "i" "s1").data.getD 0 ' ' ∧
    verifyHmacToken "d" "v" "i"
      (flipCharAt (createHmacToken "d" "v" "i" "s1") 0 '0') "s1" = .ok false ∧
    hmacSha256 (utf8Bytes "s2") (utf8Bytes ("d" ++ ":" ++ "v" ++ ":" ++ "i")) ≠
      hmacSha256 (utf8Bytes "s1") (utf8Bytes ("d" ++ ":" ++ "v" ++ ":" ++ "i")) ∧
    verifyHmacToken "d" "v" "i" (createHmacToken "d" "v" "i" "s1") "s2" = .ok false := by
  refine ⟨(c7_hmac_verify_amended "d" "v" "i" "s1").1, by decide, by decide,
    (c7_hmac_verify_amended "d" "v" "i" "s1").2.1 0 '0' (by omega) (by decide) (by decide),
    by decide,
    (c7_hmac_verify_amended "d" "v" "i" "s1").2.2 "s2" (by decide)⟩
end WsVerify
